import Mathlib

/-!
Shallow embedding of the position-management bot in `Cornels_Cryptobot.py`.

Conventions of the embedding:
* Python strings are modelled as `List Char`; Python floats as `Rat`.
* The regex searches of the source are modelled by executable matchers with
  `re.search` leftmost-match semantics (for the character classes involved the
  greedy quantifiers admit no effective backtracking, so "maximal run, then
  literal tail" is exact).
* Network calls that can raise are modelled by oracle parameters
  (`Except Unit _` responses, or `Nat → Bool` success flags per attempt).
-/

/-! ## String utilities (Python `str.strip`, literal matching, `re.search`) -/

/-- Whitespace stripped by Python `str.strip()` (the ASCII whitespace class). -/
def isPySpace (c : Char) : Bool :=
  c == ' ' || c == '\t' || c == '\n' || c == '\r' || c == '\x0b' || c == '\x0c'

/-- Python `str.strip()`: drop whitespace from both ends. -/
def pyStrip (s : List Char) : List Char :=
  ((s.dropWhile isPySpace).reverse.dropWhile isPySpace).reverse

/-- Match a literal character sequence at the start of `s`, returning the
remainder after the literal on success. -/
def matchLit : List Char → List Char → Option (List Char)
  | [], s => some s
  | _ :: _, [] => none
  | l :: ls, c :: cs => if c = l then matchLit ls cs else none

/-- Case-insensitive literal match (the literal is given lowercase), for the
patterns compiled with `re.IGNORECASE` in `update_url_to_next_hour`. -/
def matchLitCI : List Char → List Char → Option (List Char)
  | [], s => some s
  | _ :: _, [] => none
  | l :: ls, c :: cs => if c.toLower = l then matchLitCI ls cs else none

/-- `re.search`: try the single-position matcher at every position from the
left; the leftmost successful match wins. -/
def reSearch (m : List Char → Option α) : List Char → Option α
  | [] => m []
  | c :: cs =>
    match m (c :: cs) with
    | some r => some r
    | none => reSearch m cs

/-- `re.search` variant that also returns the text before and after the match,
so the caller can rebuild `url[:match.start()] + replacement + url[match.end():]`.
The single-position matcher returns the captured data and the remainder after
the whole match. -/
def reSearchSplit (m : List Char → Option (α × List Char)) :
    List Char → Option (List Char × α × List Char)
  | [] => (m []).map (fun p => ([], p.1, p.2))
  | c :: cs =>
    match m (c :: cs) with
    | some p => some ([], p.1, p.2)
    | none => (reSearchSplit m cs).map (fun q => (c :: q.1, q.2.1, q.2.2))

/-! ## `extract_market_id_from_url` (Cornels_Cryptobot.py lines 174-194) -/

/-- Character class `[a-zA-Z0-9_-]`. -/
def isSlugChar (c : Char) : Bool := c.isAlphanum || c == '_' || c == '-'

/-- Character class `[a-fA-F0-9]`. -/
def isHexChar (c : Char) : Bool :=
  c.isDigit || ('a' ≤ c && c ≤ 'f') || ('A' ≤ c && c ≤ 'F')

/-- The regex tail `(?:\?|$)`: a literal `?`, end of string, or — Python `$`
semantics — a position just before a single final newline. -/
def qmarkOrEnd : List Char → Bool
  | [] => true
  | '?' :: _ => true
  | '\n' :: [] => true
  | _ => false

/-- `re.match(r'^0x[a-fA-F0-9]+$', s)` as a Boolean (anchored full match; `$`
also accepts a single trailing newline). -/
def hexIdMatch (s : List Char) : Bool :=
  match s with
  | '0' :: 'x' :: rest =>
    let run := rest.takeWhile isHexChar
    !run.isEmpty && (rest.drop run.length == [] || rest.drop run.length == ['\n'])
  | _ => false

/-- The literal `polymarket\.com/` of URL patterns 1 and 2. -/
def polymarketLit : List Char :=
  ['p', 'o', 'l', 'y', 'm', 'a', 'r', 'k', 'e', 't', '.', 'c', 'o', 'm', '/']

/-- The alternation branch `event` followed by `/`. -/
def eventLit : List Char := ['e', 'v', 'e', 'n', 't', '/']

/-- The alternation branch `market` followed by `/`. -/
def marketLit : List Char := ['m', 'a', 'r', 'k', 'e', 't', '/']

/-- Greedy capture `([a-zA-Z0-9_-]+)` with nothing required after it. -/
def slugGroup (r : List Char) : Option (List Char) :=
  let g := r.takeWhile isSlugChar
  if g.isEmpty then none else some g

/-- Greedy capture `(0x[a-fA-F0-9]+)` with nothing required after it. -/
def hexGroup (r : List Char) : Option (List Char) :=
  match r with
  | '0' :: 'x' :: rest =>
    let h := rest.takeWhile isHexChar
    if h.isEmpty then none else some ('0' :: 'x' :: h)
  | _ => none

/-- One-position matcher for `polymarket\.com/(?:event|market)/([a-zA-Z0-9_-]+)`. -/
def urlPat1At (s : List Char) : Option (List Char) :=
  match matchLit polymarketLit s with
  | none => none
  | some r =>
    match matchLit eventLit r with
    | some r2 => slugGroup r2
    | none =>
      match matchLit marketLit r with
      | some r2 => slugGroup r2
      | none => none

/-- One-position matcher for `polymarket\.com/(?:event|market)/(0x[a-fA-F0-9]+)`. -/
def urlPat2At (s : List Char) : Option (List Char) :=
  match matchLit polymarketLit s with
  | none => none
  | some r =>
    match matchLit eventLit r with
    | some r2 => hexGroup r2
    | none =>
      match matchLit marketLit r with
      | some r2 => hexGroup r2
      | none => none

/-- One-position matcher for `/([a-zA-Z0-9_-]+)(?:\?|$)`. -/
def urlPat3At : List Char → Option (List Char)
  | [] => none
  | c :: r =>
    if c = '/' then
      let g := r.takeWhile isSlugChar
      if g.isEmpty then none
      else if qmarkOrEnd (r.drop g.length) then some g else none
    else none

/-- One-position matcher for `/(0x[a-fA-F0-9]+)(?:\?|$)`. -/
def urlPat4At : List Char → Option (List Char)
  | [] => none
  | c :: r =>
    if c = '/' then
      match r with
      | '0' :: 'x' :: r2 =>
        let h := r2.takeWhile isHexChar
        if h.isEmpty then none
        else if qmarkOrEnd (r2.drop h.length) then some ('0' :: 'x' :: h) else none
      | _ => none
    else none

/-- `extract_market_id_from_url` (lines 174-194): `None` on falsy input, the
stripped input on a full hex-id match, the first group of the first matching
URL pattern, and otherwise the stripped input unless it is empty. -/
def extract_market_id_from_url (url : List Char) : Option (List Char) :=
  if url = [] then none
  else if hexIdMatch (pyStrip url) then some (pyStrip url)
  else
    match reSearch urlPat1At url with
    | some g => some g
    | none =>
      match reSearch urlPat2At url with
      | some g => some g
      | none =>
        match reSearch urlPat3At url with
        | some g => some g
        | none =>
          match reSearch urlPat4At url with
          | some g => some g
          | none => if pyStrip url = [] then none else some (pyStrip url)

/-! ## `update_url_to_next_hour` (lines 549-587) -/

/-- Decimal rendering of a natural number, as Python `str(n)` in an f-string. -/
def natToChars (n : Nat) : List Char := (Nat.repr n).toList

/-- Python `int()` on a digit group. -/
def digitsToNat (ds : List Char) : Nat :=
  ds.foldl (fun acc c => acc * 10 + (c.toNat - '0'.toNat)) 0

/-- One-position matcher for `(\d+)am-et` (IGNORECASE): a maximal nonempty
digit run followed by the literal `am-et`; returns the digit group and the
remainder after the match. -/
def amHourAt (s : List Char) : Option (List Char × List Char) :=
  let ds := s.takeWhile Char.isDigit
  if ds.isEmpty then none
  else
    match matchLitCI ['a', 'm', '-', 'e', 't'] (s.drop ds.length) with
    | some rest => some (ds, rest)
    | none => none

/-- One-position matcher for `(\d+)pm-et` (IGNORECASE). -/
def pmHourAt (s : List Char) : Option (List Char × List Char) :=
  let ds := s.takeWhile Char.isDigit
  if ds.isEmpty then none
  else
    match matchLitCI ['p', 'm', '-', 'e', 't'] (s.drop ds.length) with
    | some rest => some (ds, rest)
    | none => none

/-- One-position matcher for `(\d{1,2}):(\d{2})`, one-digit-hour branch. -/
def timeAtOne (s : List Char) : Option ((List Char × List Char) × List Char) :=
  match s with
  | d1 :: c :: m1 :: m2 :: rest =>
    if d1.isDigit && c == ':' && m1.isDigit && m2.isDigit then
      some (([d1], [m1, m2]), rest)
    else none
  | _ => none

/-- One-position matcher for `(\d{1,2}):(\d{2})`: the greedy two-digit hour is
tried first, then the one-digit hour. -/
def timeAt (s : List Char) : Option ((List Char × List Char) × List Char) :=
  match s with
  | d1 :: d2 :: c :: m1 :: m2 :: rest =>
    if d1.isDigit && d2.isDigit && c == ':' && m1.isDigit && m2.isDigit then
      some (([d1, d2], [m1, m2]), rest)
    else timeAtOne s
  | _ => timeAtOne s

/-- `increment_am_hour` (lines 554-561). -/
def increment_am_hour (hour : Nat) : List Char :=
  if hour = 11 then "12pm-et".toList
  else if hour = 12 then "1pm-et".toList
  else natToChars (hour + 1) ++ "am-et".toList

/-- `increment_pm_hour` (lines 563-570). -/
def increment_pm_hour (hour : Nat) : List Char :=
  if hour = 11 then "12am-et".toList
  else if hour = 12 then "1am-et".toList
  else natToChars (hour + 1) ++ "pm-et".toList

/-- `update_url_to_next_hour` (lines 549-587): try the am pattern over the
whole URL, then the pm pattern, then the `HH:MM` pattern; rebuild the URL
around the leftmost match of the first pattern that matches anywhere; `None`
if no pattern matches. -/
def update_url_to_next_hour (url : List Char) : Option (List Char) :=
  match reSearchSplit amHourAt url with
  | some (pre, ds, post) => some (pre ++ increment_am_hour (digitsToNat ds) ++ post)
  | none =>
    match reSearchSplit pmHourAt url with
    | some (pre, ds, post) => some (pre ++ increment_pm_hour (digitsToNat ds) ++ post)
    | none =>
      match reSearchSplit timeAt url with
      | some (pre, g, post) =>
        some (pre ++ natToChars ((digitsToNat g.1 + 1) % 24) ++ (':' :: g.2) ++ post)
      | none => none

/-- Iterated application of `update_url_to_next_hour` through `Option`. -/
def applyNextHour : Nat → List Char → Option (List Char)
  | 0, u => some u
  | n + 1, u => (update_url_to_next_hour u).bind (applyNextHour n)

/-! ## Trade aggregation: `get_positions_from_trades` (lines 265-315) -/

/-- A trade record as consumed by the per-token aggregation loop: the raw side
string (after the `trade.get("side") or trade.get("order_side") or ""`
fallback chain), size and price. -/
structure Trade where
  side : List Char
  size : Rat
  price : Rat
deriving DecidableEq

/-- The uppercased side, `(... or "").upper()` (line 292). -/
def sideU (t : Trade) : List Char := t.side.map Char.toUpper

/-- The buy classification of line 296:
`side == "BUY" or side == "MAKER_BUY" or (not side and size > 0)`. -/
def IsBuyTrade (t : Trade) : Prop :=
  sideU t = "BUY".toList ∨ sideU t = "MAKER_BUY".toList ∨ (sideU t = [] ∧ 0 < t.size)

/-- The sell classification of line 299: `side == "SELL" or side == "MAKER_SELL"`. -/
def IsSellTrade (t : Trade) : Prop :=
  sideU t = "SELL".toList ∨ sideU t = "MAKER_SELL".toList

instance : DecidablePred IsBuyTrade := fun t => by
  unfold IsBuyTrade; infer_instance

instance : DecidablePred IsSellTrade := fun t => by
  unfold IsSellTrade; infer_instance

/-- One step of the aggregation loop (lines 296-301) on the (shares, cost)
accumulator of a single token. -/
def applyTrade (acc : Rat × Rat) (t : Trade) : Rat × Rat :=
  if IsBuyTrade t then (acc.1 + t.size, acc.2 + t.size * t.price)
  else if IsSellTrade t then (acc.1 - t.size, acc.2 - t.size * t.price)
  else acc

/-- Aggregated (total_shares, total_cost) of one token over its trades. -/
def aggregateTrades (trades : List Trade) : Rat × Rat :=
  trades.foldl applyTrade (0, 0)

/-- Per-token result of `get_positions_from_trades` (lines 307-311): the
aggregate is kept iff `total_shares > 0`, otherwise the token is absent. -/
def get_positions_from_trades (trades : List Trade) : Option (Rat × Rat) :=
  let agg := aggregateTrades trades
  if 0 < agg.1 then some agg else none

/-! ## Live prices and `get_market_positions` (lines 318-410) -/

/-- Parsed outcome of a non-raising `client.get_midpoint` call: a truthy dict
with optional `mid` and `midpoint` keys, a bare number, or any other value
(falsy or of unusable type, leaving the price at 0). -/
inductive MidpointResp where
  | dict (mid : Option Rat) (midpoint : Option Rat)
  | num (x : Rat)
  | other
deriving DecidableEq

/-- Parsed outcome of a non-raising `client.get_price` call: a truthy dict
with an optional `price` key, or any other value. -/
inductive PriceResp where
  | dict (price : Option Rat)
  | other
deriving DecidableEq

/-- The two-tier price lookup of lines 361-378: use `get_midpoint` when it does
not raise (`mid` key, else `midpoint` key, else 0; bare numbers accepted);
fall back to `get_price` only when the first tier raises; price 0 when both
tiers raise. -/
def fetchCurrentPrice (mid : Except Unit MidpointResp)
    (price : Except Unit PriceResp) : Rat :=
  match mid with
  | .ok (.dict m mp) => m.getD (mp.getD 0)
  | .ok (.num x) => x
  | .ok .other => 0
  | .error _ =>
    match price with
    | .ok (.dict p) => p.getD 0
    | .ok .other => 0
    | .error _ => 0

/-- The per-position record built by `get_market_positions` (lines 398-408). -/
structure MarketPosition where
  shares : Rat
  avg_price : Rat
  current_price : Rat
  current_value : Rat
  total_cost : Rat
  pnl : Rat
  pnl_pct : Rat
deriving DecidableEq

/-- Per-token body of `get_market_positions` (lines 360-408) for a token that
matched the target market: price lookup, the 1.0-share dust floor (line 383),
and the derived value / P&L fields. Total — no exception escapes. -/
def build_market_position (shares total_cost : Rat)
    (mid : Except Unit MidpointResp) (price : Except Unit PriceResp) :
    Option MarketPosition :=
  let current_price := fetchCurrentPrice mid price
  if shares < 1 then none
  else
    let avg_price := if 0 < shares then total_cost / shares else 0
    let current_value := if 0 < current_price then shares * current_price else 0
    let pnl := current_value - total_cost
    let pnl_pct := if 0 < avg_price then (current_price - avg_price) / avg_price * 100 else 0
    some ⟨shares, avg_price, current_price, current_value, total_cost, pnl, pnl_pct⟩

/-- The position the tracker reports for one market-matched token: trade
aggregation (`get_positions_from_trades`) followed by the per-token body of
`get_market_positions`. -/
def reportedPosition (trades : List Trade) (mid : Except Unit MidpointResp)
    (price : Except Unit PriceResp) : Option MarketPosition :=
  match get_positions_from_trades trades with
  | none => none
  | some (s, c) => build_market_position s c mid price

/-! ## `create_split_position` (lines 413-459) -/

/-- Outcome of the opening step: the market-buy orders attempted (token id and
notional amount), the number that posted successfully, and the returned
all-orders-filled flag. -/
structure SplitResult where
  orders : List (String × Rat)
  successCount : Nat
  allFilled : Bool

/-- `create_split_position` (lines 413-459): refuse with no orders when fewer
than 2 outcomes exist; otherwise attempt one market-buy of `amount_usd` per
outcome token, each attempt wrapped in its own try/except so a failure never
stops the remaining orders. `fills k` says whether the k-th order posts
without raising; the function returns `success_count == len(tokens)`. -/
def create_split_position (tokens : List (String × String)) (amount_usd : Rat)
    (fills : Nat → Bool) : SplitResult :=
  if tokens.length < 2 then ⟨[], 0, false⟩
  else
    ⟨tokens.map (fun p => (p.1, amount_usd)),
     ((List.range tokens.length).filter fills).length,
     ((List.range tokens.length).filter fills).length == tokens.length⟩

/-! ## `close_position_with_retry` (lines 462-514) -/

/-- Result of the closing routine: the returned Boolean, the number of order
submissions attempted, and the back-off sleeps performed between attempts. -/
structure RetryResult where
  success : Bool
  attempts : Nat
  waits : List Nat
deriving DecidableEq

/-- The `for attempt in range(1, max_retries + 1)` loop of
`close_position_with_retry` (lines 469-513). `submits k` says whether the k-th
submission succeeds; a failed non-final attempt sleeps `min(2 ** attempt, 10)`
seconds. `fuel` bounds the remaining iterations (it is
`max_retries - attempt + 1` at every call). -/
def closeAttemptLoop (submits : Nat → Bool) (max_retries : Nat) :
    Nat → Nat → RetryResult
  | _, 0 => ⟨false, 0, []⟩
  | attempt, fuel + 1 =>
    if submits attempt then ⟨true, 1, []⟩
    else if attempt < max_retries then
      let r := closeAttemptLoop submits max_retries (attempt + 1) fuel
      ⟨r.success, r.attempts + 1, min (2 ^ attempt) 10 :: r.waits⟩
    else ⟨false, 1, []⟩

/-- `close_position_with_retry` (lines 462-514): skip (returning false, with no
submission) below the 1.0-share floor, else run the bounded retry loop from
attempt 1. -/
def close_position_with_retry (shares : Rat) (submits : Nat → Bool)
    (max_retries : Nat) : RetryResult :=
  if shares < 1 then ⟨false, 0, []⟩
  else closeAttemptLoop submits max_retries 1 max_retries

/-! ## The monitoring loop of `main` (lines 844-911) -/

/-- A tracked position as consumed by the monitoring loop's close rules. -/
structure Position where
  token_id : String
  shares : Rat
  current_price : Rat
  pnl : Rat
deriving DecidableEq

/-- Python `min(positions, key=lambda p: p["pnl"])` (line 877): the first
position attaining the minimal P&L. -/
def minByPnl : List Position → Option Position
  | [] => none
  | p :: ps => some (ps.foldl (fun best q => if q.pnl < best.pnl then q else best) p)

/-- Outcome of the 7-minutes-before-end rule. -/
structure SevenMinResult where
  closeOrder : Option (String × Rat)
  remaining : List Position
deriving DecidableEq

/-- The 7-minutes-before-end rule (lines 871-891): inside the half-open window
`7 <= minutes_until_end < 8` and with at least 2 positions, the minimum-P&L
position is closed iff its current price is strictly below 0.30, and is then
filtered out of the tracked list.  The Boolean returned by
`close_position_with_retry` is discarded by the caller (line 881), hence the
unused `closeResult` parameter: removal does not depend on it. -/
def sevenMinuteCheck (minutes_until_end : Rat) (positions : List Position)
    (closeResult : Bool) : SevenMinResult :=
  if 7 ≤ minutes_until_end ∧ minutes_until_end < 8 then
    if 2 ≤ positions.length then
      match minByPnl positions with
      | some losing =>
        if losing.current_price < 3 / 10 then
          ⟨some (losing.token_id, losing.shares),
            positions.filter (fun p => !(p.token_id == losing.token_id))⟩
        else ⟨none, positions⟩
      | none => ⟨none, positions⟩
    else ⟨none, positions⟩
  else ⟨none, positions⟩

/-- Observable outcome of one iteration of the monitoring loop. -/
structure TickOutcome where
  sevenMinClose : Option (String × Rat)
  hourEndCloses : List (String × Rat)
  exitLoop : Bool
  positionsAfter : List Position
deriving DecidableEq

/-- One iteration of the monitoring loop (lines 844-911): first the
`time_until_end <= 0` break (which closes nothing, line 849), then the
7-minute rule, then the `minutes_until_end <= 1` rule that submits a retrying
market-sell for every remaining position and breaks (lines 893-904). -/
def monitorTick (time_until_end : Rat) (positions : List Position)
    (closeResult : Bool) : TickOutcome :=
  if time_until_end ≤ 0 then ⟨none, [], true, positions⟩
  else
    let minutes_until_end := time_until_end / 60
    let s := sevenMinuteCheck minutes_until_end positions closeResult
    if minutes_until_end ≤ 1 then
      ⟨s.closeOrder, s.remaining.map (fun p => (p.token_id, p.shares)), true, s.remaining⟩
    else
      ⟨s.closeOrder, [], false, s.remaining⟩

/-! ## Concrete data used by witnesses and counterexamples -/

/-- Canonical hourly slug URL with hour token `Nam-et`. -/
def hourSlugAm (n : Nat) : List Char :=
  "https://polymarket.com/event/bitcoin-up-or-down-january-16-".toList
    ++ natToChars n ++ "am-et".toList

/-- A URL containing two `11am-et` hour tokens. -/
def twoTokenUrl : List Char := "11am-et-11am-et".toList

def url11am : List Char :=
  "https://polymarket.com/event/bitcoin-up-or-down-january-16-11am-et".toList

def url12pm : List Char :=
  "https://polymarket.com/event/bitcoin-up-or-down-january-16-12pm-et".toList

def url11pm : List Char :=
  "https://polymarket.com/event/bitcoin-up-or-down-january-16-11pm-et".toList

def url12am : List Char :=
  "https://polymarket.com/event/bitcoin-up-or-down-january-16-12am-et".toList

def url1am : List Char :=
  "https://polymarket.com/event/bitcoin-up-or-down-january-16-1am-et".toList

def url1pm : List Char :=
  "https://polymarket.com/event/bitcoin-up-or-down-january-16-1pm-et".toList

/-- Losing position of the C1 scenario: price 0.25, P&L −3. -/
def posLosing : Position := ⟨"tokA", 10, 1 / 4, -3⟩

/-- Winning position of the C1 scenario: price 0.75, P&L +1. -/
def posWinning : Position := ⟨"tokB", 12, 3 / 4, 1⟩

/-- A single tracked position used in the hour-end scenarios. -/
def posSingle : Position := ⟨"tokC", 7, 1 / 2, 0⟩

/-- A trade with empty side and positive size. -/
def tradeEmptySide : Trade := ⟨[], 2, 1 / 2⟩

/-- A trade with an unrecognized non-empty side. -/
def tradeOddSide : Trade := ⟨"HOLD".toList, 2, 1 / 2⟩

/-- Fill oracle used by witnesses: only the first order fills. -/
def fillsFirst : Nat → Bool := fun k => k == 0

/-- Submission oracle used by witnesses: only attempt 3 succeeds. -/
def submitsThird : Nat → Bool := fun k => k == 3

/-! ## Theorems -/

/-- C4: boundary behavior of the hour increment, evaluated on canonical URLs.
`11am → 12pm` and `11pm → 12am` hold as claimed, but the noon and midnight
cases are crossed: the code rewrites a `12pm-et` token to `1am-et` (the claim,
and the function's own "update the URL to the next hour" docstring, require
`1pm-et`) and a `12am-et` token to `1pm-et` (instead of `1am-et`) — the
`hour == 12` branches of `increment_am_hour` and `increment_pm_hour` are
swapped. -/
theorem update_url_boundary_behavior :
    update_url_to_next_hour url11am = some url12pm
    ∧ update_url_to_next_hour url11pm = some url12am
    ∧ update_url_to_next_hour url12pm = some url1am
    ∧ update_url_to_next_hour url12am = some url1pm
    ∧ update_url_to_next_hour url12pm ≠ some url1pm
    ∧ update_url_to_next_hour url12am ≠ some url1am := by
  refine ⟨by decide, by decide, by decide, by decide, by decide, by decide⟩

set_option maxRecDepth 40000 in
/-- C3 counterexample: the URL `11am-et-11am-et` contains the hour token
`11am-et`, but twelve applications of `update_url_to_next_hour` produce
`10am-et-12pm-et`, whose (unique) am hour token is `10am`, not `11am`. -/
theorem twelve_applications_counterexample :
    (reSearchSplit amHourAt twoTokenUrl).map (fun q => q.2.1) = some "11".toList
    ∧ applyNextHour 12 twoTokenUrl = some "10am-et-12pm-et".toList
    ∧ (reSearchSplit amHourAt ("10am-et-12pm-et".toList)).map (fun q => q.2.1)
        = some "10".toList := by
  refine ⟨by decide, by decide, by decide⟩

set_option maxRecDepth 40000 in
/-- C3 (amended): on the canonical hourly slug URLs, whose unique hour token is
`Nam-et` (N = 1..12), the URL hour-increment is periodic with period 12:
twelve applications of `update_url_to_next_hour` return exactly the original
URL (hence in particular the same `Nam` hour token). -/
theorem twelve_applications_cycle (n : Nat) (h1 : 1 ≤ n) (h2 : n ≤ 12) :
    applyNextHour 12 (hourSlugAm n) = some (hourSlugAm n) := by
  interval_cases n <;> decide

/-- Witness for `twelve_applications_cycle` at N = 8. -/
theorem twelve_applications_cycle_witness :
    1 ≤ 8 ∧ 8 ≤ 12 ∧ applyNextHour 12 (hourSlugAm 8) = some (hourSlugAm 8) :=
  ⟨by decide, by decide, twelve_applications_cycle 8 (by decide) (by decide)⟩

/-- Helper: the monitoring tick between the two break conditions only runs the
7-minute rule. -/
lemma monitorTick_mid (t : Rat) (ps : List Position) (b : Bool)
    (h0 : ¬ t ≤ 0) (h1 : ¬ t / 60 ≤ 1) :
    monitorTick t ps b =
      ⟨(sevenMinuteCheck (t / 60) ps b).closeOrder, [], false,
        (sevenMinuteCheck (t / 60) ps b).remaining⟩ := by
  simp [monitorTick, h0, h1]

/-- Helper: inside the [7,8) window with at least two positions, the 7-minute
rule reduces to the price test on the minimum-P&L position. -/
lemma sevenMinuteCheck_window (m : Rat) (ps : List Position) (b : Bool)
    (losing : Position) (h7 : 7 ≤ m) (h8 : m < 8) (hlen : 2 ≤ ps.length)
    (hmin : minByPnl ps = some losing) :
    sevenMinuteCheck m ps b =
      if losing.current_price < 3 / 10 then
        ⟨some (losing.token_id, losing.shares),
          ps.filter (fun p => !(p.token_id == losing.token_id))⟩
      else ⟨none, ps⟩ := by
  unfold sevenMinuteCheck
  rw [if_pos ⟨h7, h8⟩, if_pos hlen, hmin]

/-- Helper: outside the [7,8) window the 7-minute rule does nothing. -/
lemma sevenMinuteCheck_outside (m : Rat) (ps : List Position) (b : Bool)
    (h : ¬ (7 ≤ m ∧ m < 8)) :
    sevenMinuteCheck m ps b = ⟨none, ps⟩ := by
  simp [sevenMinuteCheck, h]

/-- C1: in the monitoring loop, whenever the remaining time lies in the
half-open window [7,8) minutes and at least two positions are tracked, the
minimum-P&L position is handed to the retrying market-sell with its full share
count iff its current price is strictly below 0.30 (at exactly 0.30 nothing is
closed); when the close is attempted the position is removed from the tracked
set, and the tick's outcome is the same whether the close order succeeded
(`b = true`) or failed (`b = false`). -/
theorem sevenMinuteRule_spec (t : Rat) (ps : List Position) (b : Bool)
    (losing : Position) (h7 : 7 ≤ t / 60) (h8 : t / 60 < 8)
    (hlen : 2 ≤ ps.length) (hmin : minByPnl ps = some losing) :
    ((monitorTick t ps b).sevenMinClose = some (losing.token_id, losing.shares)
        ↔ losing.current_price < 3 / 10)
    ∧ (losing.current_price < 3 / 10 →
        (monitorTick t ps b).positionsAfter
          = ps.filter (fun p => !(p.token_id == losing.token_id)))
    ∧ (¬ losing.current_price < 3 / 10 →
        (monitorTick t ps b).sevenMinClose = none
        ∧ (monitorTick t ps b).positionsAfter = ps)
    ∧ (monitorTick t ps b).hourEndCloses = []
    ∧ (monitorTick t ps b).exitLoop = false
    ∧ monitorTick t ps true = monitorTick t ps false := by
  have h60 : (0 : Rat) < 60 := by norm_num
  have ht : 420 ≤ t := by
    have := (le_div_iff h60).mp h7
    linarith
  have h0 : ¬ t ≤ 0 := by linarith
  have h1 : ¬ t / 60 ≤ 1 := by
    intro hle
    linarith
  have hbirr : monitorTick t ps true = monitorTick t ps false := rfl
  rw [monitorTick_mid t ps b h0 h1, sevenMinuteCheck_window (t / 60) ps b losing h7 h8 hlen hmin]
  by_cases hp : losing.current_price < 3 / 10
  · simp [hp, hbirr]
  · simp [hp, hbirr]

/-- Witness for `sevenMinuteRule_spec`: at 7.5 minutes remaining (450 s), with
positions of P&L −3 (price 0.25) and +1, the losing position is closed; and at
price exactly 0.30 it is not. -/
theorem sevenMinuteRule_spec_witness :
    minByPnl [posLosing, posWinning] = some posLosing
    ∧ (monitorTick 450 [posLosing, posWinning] true).sevenMinClose
        = some ("tokA", (10 : Rat))
    ∧ (monitorTick 450 [⟨"tokA", 10, 3 / 10, -3⟩, posWinning] true).sevenMinClose
        = none := by
  refine ⟨by rfl, ?_, ?_⟩
  · have h := sevenMinuteRule_spec 450 [posLosing, posWinning] true posLosing
      (by norm_num) (by norm_num) (by decide) (by rfl)
    exact h.1.mpr (by norm_num [posLosing])
  · have h := sevenMinuteRule_spec 450 [⟨"tokA", 10, 3 / 10, -3⟩, posWinning] true
      ⟨"tokA", 10, 3 / 10, -3⟩ (by norm_num) (by norm_num) (by decide) (by rfl)
    exact (h.2.2.1 (by norm_num)).1

/-- C5 counterexample: at remaining time 0 seconds — which is "remaining time
≤ 1 minute" — the monitoring loop exits without submitting any closing order
even though a position is still tracked. -/
theorem hourEndRule_zero_counterexample :
    (0 : Rat) / 60 ≤ 1
    ∧ (monitorTick 0 [posSingle] true).exitLoop = true
    ∧ (monitorTick 0 [posSingle] true).hourEndCloses = []
    ∧ (monitorTick 0 [posSingle] true).hourEndCloses
        ≠ [posSingle].map (fun p => (p.token_id, p.shares)) := by
  refine ⟨by norm_num, by decide, by decide, by decide⟩

/-- C5 (amended): when the remaining time is positive and at most 1 minute —
in particular exactly 1.0 minutes — a retrying market-sell is submitted for
every remaining tracked position and the loop exits unconditionally; at zero
or negative remaining time the loop exits without closing anything (the
`time_until_end <= 0` break precedes the rule); above 1 minute (e.g. at 1.01
minutes) this rule closes nothing. -/
theorem hourEndRule_spec :
    (∀ (t : Rat) (ps : List Position) (b : Bool), 0 < t → t / 60 ≤ 1 →
      (monitorTick t ps b).hourEndCloses = ps.map (fun p => (p.token_id, p.shares))
      ∧ (monitorTick t ps b).exitLoop = true
      ∧ (monitorTick t ps b).sevenMinClose = none)
    ∧ (∀ (t : Rat) (ps : List Position) (b : Bool), t ≤ 0 →
      (monitorTick t ps b).hourEndCloses = []
      ∧ (monitorTick t ps b).exitLoop = true)
    ∧ (∀ (t : Rat) (ps : List Position) (b : Bool), 1 < t / 60 →
      (monitorTick t ps b).hourEndCloses = []) := by
  refine ⟨?_, ?_, ?_⟩
  · intro t ps b ht hm
    have h0 : ¬ t ≤ 0 := by linarith
    have hw : ¬ (7 ≤ t / 60 ∧ t / 60 < 8) := by
      rintro ⟨h7, -⟩
      linarith
    simp [monitorTick, h0, hm, sevenMinuteCheck_outside _ ps b hw]
  · intro t ps b ht
    simp [monitorTick, ht]
  · intro t ps b ht
    have h60 : (0 : Rat) < 60 := by norm_num
    have h0 : ¬ t ≤ 0 := by
      have := (lt_div_iff h60).mp ht
      linarith
    have h1 : ¬ t / 60 ≤ 1 := by linarith
    simp [monitorTick, h0, h1]

/-- Witness for `hourEndRule_spec`: at exactly 1.0 minutes remaining (60 s)
the single tracked position is sold and the loop exits. -/
theorem hourEndRule_spec_witness :
    (0 : Rat) < 60 ∧ (60 : Rat) / 60 ≤ 1
    ∧ (monitorTick 60 [posSingle] true).hourEndCloses = [("tokC", (7 : Rat))]
    ∧ (monitorTick 60 [posSingle] true).exitLoop = true := by
  have h := hourEndRule_spec.1 60 [posSingle] true (by norm_num) (by norm_num)
  refine ⟨by norm_num, by norm_num, ?_, h.2.1⟩
  simpa [posSingle] using h.1

/-- C6 counterexample: with a single outcome token (and zero prior positions)
the opening step issues no orders at all — the code refuses below 2 outcomes —
rather than one order for the one token. -/
theorem create_split_single_counterexample :
    (create_split_position [("tok1", "Up")] 5 fillsFirst).orders = []
    ∧ (create_split_position [("tok1", "Up")] 5 fillsFirst).orders.length ≠ 1 := by
  refine ⟨by rfl, by decide⟩

/-- C6 (amended): with zero existing positions and N ≥ 2 outcome tokens, the
opening step issues exactly N market-buy orders, one per outcome token in
order, each for the configured notional amount, and the issued orders do not
depend on which submissions fill (each order is attempted in its own
try/except); with fewer than two tokens no orders are issued. -/
theorem create_split_position_spec (tokens : List (String × String))
    (amount : Rat) (fills : Nat → Bool) (h : 2 ≤ tokens.length) :
    (create_split_position tokens amount fills).orders
        = tokens.map (fun p => (p.1, amount))
    ∧ (create_split_position tokens amount fills).orders.length = tokens.length
    ∧ ∀ fills2 : Nat → Bool,
        (create_split_position tokens amount fills).orders
          = (create_split_position tokens amount fills2).orders := by
  have h' : ¬ tokens.length < 2 := not_lt.mpr h
  refine ⟨?_, ?_, ?_⟩ <;> simp [create_split_position, h']

/-- Witness for `create_split_position_spec` with two outcome tokens at the
default $5 notional. -/
theorem create_split_position_spec_witness :
    2 ≤ ([("t1", "Up"), ("t2", "Down")] : List (String × String)).length
    ∧ (create_split_position [("t1", "Up"), ("t2", "Down")] 5 fillsFirst).orders
        = [("t1", (5 : Rat)), ("t2", (5 : Rat))] := by
  have h := create_split_position_spec [("t1", "Up"), ("t2", "Down")] 5 fillsFirst (by decide)
  exact ⟨by decide, by simpa using h.1⟩

/-- C7: the live-price lookup consults the midpoint tier first — when it does
not raise, the fallback tier is never relevant — and when both tiers raise,
the tracked position (at or above the share floor) is still reported, with
current price 0, current value 0, and P&L equal to the negated total cost.
(`build_market_position` is a total function: no exception propagates.) -/
theorem price_fallback_spec (shares total_cost : Rat) (h : 1 ≤ shares) :
    (∀ (v : MidpointResp) (p p' : Except Unit PriceResp),
        fetchCurrentPrice (Except.ok v) p = fetchCurrentPrice (Except.ok v) p')
    ∧ ∃ mp : MarketPosition,
        build_market_position shares total_cost (Except.error ()) (Except.error ())
            = some mp
        ∧ mp.current_price = 0 ∧ mp.current_value = 0 ∧ mp.pnl = -total_cost := by
  constructor
  · intro v p p'
    cases v <;> rfl
  · have h' : ¬ shares < 1 := not_lt.mpr h
    unfold build_market_position
    rw [if_neg h']
    exact ⟨_, rfl, rfl, rfl, zero_sub total_cost⟩

/-- Witness for `price_fallback_spec` at 2 shares of total cost 3. -/
theorem price_fallback_spec_witness :
    (1 : Rat) ≤ 2
    ∧ ∃ mp : MarketPosition,
        build_market_position 2 3 (Except.error ()) (Except.error ()) = some mp
        ∧ mp.current_price = 0 ∧ mp.current_value = 0 ∧ mp.pnl = -3 :=
  ⟨by norm_num, (price_fallback_spec 2 3 (by norm_num)).2⟩

/-- Helper: the retry loop never makes more attempts than it has fuel. -/
lemma closeAttemptLoop_attempts_le (submits : Nat → Bool) (maxr : Nat) :
    ∀ fuel attempt, (closeAttemptLoop submits maxr attempt fuel).attempts ≤ fuel := by
  intro fuel
  induction fuel with
  | zero => intro a; simp [closeAttemptLoop]
  | succ f ih =>
    intro a
    by_cases hs : submits a = true
    · simp [closeAttemptLoop, hs]
    · by_cases hm : a < maxr
      · simpa [closeAttemptLoop, hs, hm] using Nat.succ_le_succ (ih (a + 1))
      · simp [closeAttemptLoop, hs, hm]

/-- Helper: one unfolding step of the retry loop on a failed non-final attempt. -/
lemma closeAttemptLoop_step_fail (submits : Nat → Bool) (maxr a f : Nat)
    (hs : ¬ submits a = true) (hm : a < maxr) :
    closeAttemptLoop submits maxr a (f + 1) =
      ⟨(closeAttemptLoop submits maxr (a + 1) f).success,
        (closeAttemptLoop submits maxr (a + 1) f).attempts + 1,
        min (2 ^ a) 10 :: (closeAttemptLoop submits maxr (a + 1) f).waits⟩ := by
  simp [closeAttemptLoop, hs, hm]

/-- Helper: the i-th recorded back-off sleep starting from `attempt` is
`min (2 ^ (attempt + i)) 10` (optional-indexing form). -/
lemma closeAttemptLoop_waits_getElem (submits : Nat → Bool) (maxr : Nat) :
    ∀ fuel attempt i,
      i < (closeAttemptLoop submits maxr attempt fuel).waits.length →
      (closeAttemptLoop submits maxr attempt fuel).waits[i]?
        = some (min (2 ^ (attempt + i)) 10) := by
  intro fuel
  induction fuel with
  | zero => intro a i h; simp [closeAttemptLoop] at h
  | succ f ih =>
    intro a i h
    by_cases hs : submits a = true
    · simp [closeAttemptLoop, hs] at h
    · by_cases hm : a < maxr
      · rw [closeAttemptLoop_step_fail submits maxr a f hs hm] at h ⊢
        cases i with
        | zero => simp
        | succ j =>
          have hj : j < (closeAttemptLoop submits maxr (a + 1) f).waits.length := by
            simpa using h
          have hrw := ih (a + 1) j hj
          have harith : a + 1 + j = a + (j + 1) := by omega
          rw [harith] at hrw
          simpa using hrw
      · simp [closeAttemptLoop, hs, hm] at h

/-- Helper: `Fin`-indexed corollary of `closeAttemptLoop_waits_getElem`. -/
lemma closeAttemptLoop_waits (submits : Nat → Bool) (maxr : Nat)
    (fuel attempt i : Nat)
    (h : i < (closeAttemptLoop submits maxr attempt fuel).waits.length) :
    (closeAttemptLoop submits maxr attempt fuel).waits.get ⟨i, h⟩
      = min (2 ^ (attempt + i)) 10 := by
  have hq := closeAttemptLoop_waits_getElem submits maxr fuel attempt i h
  rw [List.getElem?_eq_getElem h] at hq
  have := Option.some.inj hq
  simpa [List.get_eq_getElem] using this

/-- Helper: when every attempt in range fails, the loop exhausts its fuel and
reports failure. -/
lemma closeAttemptLoop_all_fail (submits : Nat → Bool) (maxr : Nat) :
    ∀ fuel attempt, attempt + fuel = maxr + 1 →
      (∀ k, attempt ≤ k → k ≤ maxr → submits k = false) →
      (closeAttemptLoop submits maxr attempt fuel).success = false
      ∧ (closeAttemptLoop submits maxr attempt fuel).attempts = fuel := by
  intro fuel
  induction fuel with
  | zero => intro a _ _; simp [closeAttemptLoop]
  | succ f ih =>
    intro a hsum hall
    have ha : a ≤ maxr := by omega
    have hsa : submits a = false := hall a le_rfl ha
    by_cases hm : a < maxr
    · have hrec := ih (a + 1) (by omega) (fun k hk1 hk2 => hall k (by omega) hk2)
      simp [closeAttemptLoop, hsa, hm, hrec.1, hrec.2]
    · have hf : f = 0 := by omega
      subst hf
      simp [closeAttemptLoop, hsa, hm]

/-- Helper: the loop stops at the first successful attempt, reporting success
and the number of attempts made. -/
lemma closeAttemptLoop_first_success (submits : Nat → Bool) (maxr : Nat) :
    ∀ fuel attempt k, attempt ≤ k → k < attempt + fuel → k ≤ maxr →
      submits k = true → (∀ j, attempt ≤ j → j < k → submits j = false) →
      (closeAttemptLoop submits maxr attempt fuel).success = true
      ∧ (closeAttemptLoop submits maxr attempt fuel).attempts = k + 1 - attempt := by
  intro fuel
  induction fuel with
  | zero => intro a k h1 h2 _ _ _; exact absurd h2 (by omega)
  | succ f ih =>
    intro a k h1 h2 h3 hk hfirst
    by_cases hak : a = k
    · subst hak
      have harith : a + 1 - a = 1 := by omega
      constructor
      · simp [closeAttemptLoop, hk]
      · simp [closeAttemptLoop, hk, harith]
    · have hlt : a < k := lt_of_le_of_ne h1 hak
      have hsa : submits a = false := hfirst a le_rfl hlt
      have hm : a < maxr := lt_of_lt_of_le hlt h3
      have hrec := ih (a + 1) k hlt (by omega) h3 hk
        (fun j hj1 hj2 => hfirst j (by omega) hj2)
      constructor
      · simp [closeAttemptLoop, hsa, hm, hrec.1]
      · simp [closeAttemptLoop, hsa, hm, hrec.2]
        omega

/-- C8: with at least one share, `close_position_with_retry` with the default
cap of 10 makes at most 10 submission attempts; the sleep between failed
attempt k and the next attempt is `min (2 ^ k) 10` seconds; when all 10
attempts fail it returns false after exactly 10 attempts (it does not raise —
the function is total — so a stuck position cannot terminate the outer loop);
and it stops at the first successful attempt, returning true. -/
theorem close_position_with_retry_spec (submits : Nat → Bool) (shares : Rat)
    (h : 1 ≤ shares) :
    (close_position_with_retry shares submits 10).attempts ≤ 10
    ∧ (∀ i (hi : i < (close_position_with_retry shares submits 10).waits.length),
        (close_position_with_retry shares submits 10).waits.get ⟨i, hi⟩
          = min (2 ^ (i + 1)) 10)
    ∧ ((∀ k, 1 ≤ k → k ≤ 10 → submits k = false) →
        (close_position_with_retry shares submits 10).success = false
        ∧ (close_position_with_retry shares submits 10).attempts = 10)
    ∧ (∀ k, 1 ≤ k → k ≤ 10 → submits k = true →
        (∀ j, 1 ≤ j → j < k → submits j = false) →
        (close_position_with_retry shares submits 10).success = true
        ∧ (close_position_with_retry shares submits 10).attempts = k) := by
  have h' : ¬ shares < 1 := not_lt.mpr h
  unfold close_position_with_retry
  rw [if_neg h']
  refine ⟨closeAttemptLoop_attempts_le submits 10 10 1, ?_, ?_, ?_⟩
  · intro i hi
    have := closeAttemptLoop_waits submits 10 10 1 i hi
    simpa [Nat.add_comm] using this
  · intro hall
    exact closeAttemptLoop_all_fail submits 10 10 1 (by omega) hall
  · intro k hk1 hk2 hk3 hfirst
    have hres := closeAttemptLoop_first_success submits 10 10 1 k hk1 (by omega) hk2 hk3 hfirst
    exact ⟨hres.1, by omega⟩

/-- Witness for `close_position_with_retry_spec`: with 5 shares and an oracle
where only attempt 3 succeeds, the close returns true after 3 attempts. -/
theorem close_position_with_retry_spec_witness :
    (1 : Rat) ≤ 5
    ∧ (close_position_with_retry 5 submitsThird 10).success = true
    ∧ (close_position_with_retry 5 submitsThird 10).attempts = 3 := by
  have h := (close_position_with_retry_spec submitsThird 5 (by norm_num)).2.2.2 3
    (by decide) (by decide) (by decide)
    (fun j h1 h2 => by interval_cases j <;> rfl)
  exact ⟨by norm_num, h.1, h.2⟩

/-- Helper: the buy and sell classifications are mutually exclusive. -/
lemma IsBuyTrade.not_sell {t : Trade} (h : IsBuyTrade t) : ¬ IsSellTrade t := by
  intro hs
  rcases h with h | h | ⟨h, -⟩ <;> rcases hs with hs | hs <;>
    rw [h] at hs <;> exact absurd hs (by decide)

/-- Helper: the first component of the aggregation fold adds buy sizes and
subtracts sell sizes, from any accumulator. -/
lemma foldl_applyTrade_fst (trades : List Trade) :
    ∀ init : Rat × Rat,
      (trades.foldl applyTrade init).1
        = init.1
          + ((trades.filter (fun t => decide (IsBuyTrade t))).map Trade.size).sum
          - ((trades.filter (fun t => decide (IsSellTrade t))).map Trade.size).sum := by
  induction trades with
  | nil => intro init; simp
  | cons t ts ih =>
    intro init
    rw [List.foldl_cons, ih (applyTrade init t)]
    by_cases hb : IsBuyTrade t
    · have hs : ¬ IsSellTrade t := hb.not_sell
      simp only [applyTrade, if_pos hb, List.filter_cons, decide_eq_true_eq, hb, hs,
        if_true, if_false, ite_true, ite_false, List.map_cons, List.sum_cons]
      ring
    · by_cases hs : IsSellTrade t
      · simp only [applyTrade, if_pos hs, if_neg hb, List.filter_cons, decide_eq_true_eq,
          hb, hs, ite_true, ite_false, List.map_cons, List.sum_cons]
        ring
      · simp only [applyTrade, if_neg hb, if_neg hs, List.filter_cons, decide_eq_true_eq,
          hb, hs, ite_false]

/-- C2: for every trade sequence, the aggregated share count equals the sum of
buy-trade sizes minus the sum of sell-trade sizes; and the tracker reports a
position for the token iff the aggregate is strictly positive (the
`total_shares > 0` filter of `get_positions_from_trades`) and at least 1.0
(the dust floor of `get_market_positions`). -/
theorem trade_aggregation_spec (trades : List Trade)
    (mid : Except Unit MidpointResp) (price : Except Unit PriceResp) :
    (aggregateTrades trades).1
        = ((trades.filter (fun t => decide (IsBuyTrade t))).map Trade.size).sum
          - ((trades.filter (fun t => decide (IsSellTrade t))).map Trade.size).sum
    ∧ ((reportedPosition trades mid price).isSome
        ↔ 0 < (aggregateTrades trades).1 ∧ 1 ≤ (aggregateTrades trades).1) := by
  constructor
  · simpa [aggregateTrades] using foldl_applyTrade_fst trades (0, 0)
  · unfold reportedPosition get_positions_from_trades
    by_cases h1 : 0 < (aggregateTrades trades).1
    · by_cases h2 : (aggregateTrades trades).1 < 1
      · have : ¬ (1 : Rat) ≤ (aggregateTrades trades).1 := not_le.mpr h2
        simp [h1, h2, build_market_position, this]
      · have : (1 : Rat) ≤ (aggregateTrades trades).1 := not_lt.mp h2
        simp [h1, h2, build_market_position, this]
    · simp [h1]

/-- C9: in the aggregation loop, a trade whose side string is empty but whose
size is strictly positive is counted as a buy (size added to shares, size ×
price to cost), while a trade with a non-empty side whose uppercasing is none
of BUY, MAKER_BUY, SELL, MAKER_SELL leaves the accumulator untouched. -/
theorem side_classification_spec (acc : Rat × Rat) (t : Trade) :
    (t.side = [] → 0 < t.size →
      applyTrade acc t = (acc.1 + t.size, acc.2 + t.size * t.price))
    ∧ (t.side ≠ [] →
        sideU t ≠ "BUY".toList → sideU t ≠ "MAKER_BUY".toList →
        sideU t ≠ "SELL".toList → sideU t ≠ "MAKER_SELL".toList →
        applyTrade acc t = acc) := by
  constructor
  · intro h hs
    have hb : IsBuyTrade t := Or.inr (Or.inr ⟨by simp [sideU, h], hs⟩)
    simp [applyTrade, hb]
  · intro hne h1 h2 h3 h4
    have hb : ¬ IsBuyTrade t := by
      rintro (h | h | ⟨h, -⟩)
      · exact h1 h
      · exact h2 h
      · exact hne (by simpa [sideU, List.map_eq_nil_iff] using h)
    have hs : ¬ IsSellTrade t := by
      rintro (h | h)
      · exact h3 h
      · exact h4 h
    simp [applyTrade, hb, hs]

/-- Witness for `side_classification_spec`: an empty-side trade of size 2 at
price 0.5 is counted as a buy; a side string `HOLD` leaves the accumulator
unchanged. -/
theorem side_classification_spec_witness :
    (tradeEmptySide.side = [] ∧ (0 : Rat) < tradeEmptySide.size
      ∧ applyTrade (0, 0) tradeEmptySide = (2, 1))
    ∧ (tradeOddSide.side ≠ [] ∧ applyTrade (0, 0) tradeOddSide = (0, 0)) := by
  constructor
  · refine ⟨rfl, by norm_num [tradeEmptySide], ?_⟩
    have h := (side_classification_spec (0, 0) tradeEmptySide).1 rfl
      (by norm_num [tradeEmptySide])
    rw [h]
    norm_num [tradeEmptySide, Prod.ext_iff]
  · refine ⟨by decide, ?_⟩
    exact (side_classification_spec (0, 0) tradeOddSide).2 (by decide) (by decide)
      (by decide) (by decide) (by decide)

/-- Helper: `dropWhile` is empty iff every element satisfies the predicate. -/
lemma pyStrip_nil_iff (s : List Char) :
    pyStrip s = [] ↔ ∀ c ∈ s, isPySpace c = true := by
  unfold pyStrip
  rw [List.reverse_eq_nil_iff, List.dropWhile_eq_nil_iff]
  constructor
  · intro h c hc
    have hsplit := List.takeWhile_append_dropWhile isPySpace s
    rw [← hsplit] at hc
    rcases List.mem_append.mp hc with hc1 | hc2
    · exact List.mem_takeWhile_imp hc1
    · exact h c (List.mem_reverse.mpr hc2)
  · intro h c hc
    have hc2 := List.mem_reverse.mp hc
    have hsplit := List.takeWhile_append_dropWhile isPySpace s
    have : c ∈ s := by
      rw [← hsplit]
      exact List.mem_append.mpr (Or.inr hc2)
    exact h c this

/-- Helper: a Python-whitespace character is neither `p` nor `/`. -/
lemma isPySpace_ne {c : Char} (h : isPySpace c = true) : c ≠ 'p' ∧ c ≠ '/' := by
  constructor <;> rintro rfl <;> exact absurd h (by decide)

/-- Helper: pattern 1 cannot match at a whitespace character. -/
lemma urlPat1At_space {c : Char} (h : isPySpace c = true) (cs : List Char) :
    urlPat1At (c :: cs) = none := by
  unfold urlPat1At polymarketLit
  simp [matchLit, (isPySpace_ne h).1]

/-- Helper: pattern 2 cannot match at a whitespace character. -/
lemma urlPat2At_space {c : Char} (h : isPySpace c = true) (cs : List Char) :
    urlPat2At (c :: cs) = none := by
  unfold urlPat2At polymarketLit
  simp [matchLit, (isPySpace_ne h).1]

/-- Helper: pattern 3 cannot match at a whitespace character. -/
lemma urlPat3At_space {c : Char} (h : isPySpace c = true) (cs : List Char) :
    urlPat3At (c :: cs) = none := by
  simp [urlPat3At, (isPySpace_ne h).2]

/-- Helper: pattern 4 cannot match at a whitespace character. -/
lemma urlPat4At_space {c : Char} (h : isPySpace c = true) (cs : List Char) :
    urlPat4At (c :: cs) = none := by
  simp [urlPat4At, (isPySpace_ne h).2]

/-- Helper: a search whose matcher fails on the empty list and at every
whitespace head finds nothing in an all-whitespace string. -/
lemma reSearch_space (m : List Char → Option (List Char)) (hnil : m [] = none)
    (hcons : ∀ c cs, isPySpace c = true → m (c :: cs) = none) :
    ∀ url, (∀ c ∈ url, isPySpace c = true) → reSearch m url = none := by
  intro url
  induction url with
  | nil => intro _; simpa [reSearch] using hnil
  | cons c cs ih =>
    intro h
    have hc := h c (List.mem_cons_self c cs)
    have hrest := ih (fun x hx => h x (List.mem_cons_of_mem c hx))
    simp [reSearch, hcons c cs hc, hrest]

/-- C10: `extract_market_id_from_url` returns `none` exactly on empty or
whitespace-only input; and whenever the input is nonempty after stripping,
matches neither the anchored hex-id pattern nor any of the four URL patterns,
the function returns the stripped input itself rather than failing. -/
theorem extract_market_id_spec :
    (∀ url, extract_market_id_from_url url = none ↔ pyStrip url = [])
    ∧ (∀ url, pyStrip url ≠ [] →
        hexIdMatch (pyStrip url) = false →
        reSearch urlPat1At url = none → reSearch urlPat2At url = none →
        reSearch urlPat3At url = none → reSearch urlPat4At url = none →
        extract_market_id_from_url url = some (pyStrip url)) := by
  constructor
  · intro url
    constructor
    · intro h
      by_cases hn : url = []
      · subst hn; rfl
      · by_cases hx : hexIdMatch (pyStrip url) = true
        · simp [extract_market_id_from_url, hn, hx] at h
        · cases h1 : reSearch urlPat1At url with
          | some g => simp [extract_market_id_from_url, hn, hx, h1] at h
          | none =>
            cases h2 : reSearch urlPat2At url with
            | some g => simp [extract_market_id_from_url, hn, hx, h1, h2] at h
            | none =>
              cases h3 : reSearch urlPat3At url with
              | some g => simp [extract_market_id_from_url, hn, hx, h1, h2, h3] at h
              | none =>
                cases h4 : reSearch urlPat4At url with
                | some g => simp [extract_market_id_from_url, hn, hx, h1, h2, h3, h4] at h
                | none =>
                  by_cases hs : pyStrip url = []
                  · exact hs
                  · simp [extract_market_id_from_url, hn, hx, h1, h2, h3, h4, hs] at h
    · intro h
      have hsp : ∀ c ∈ url, isPySpace c = true := (pyStrip_nil_iff url).mp h
      have h1 := reSearch_space urlPat1At rfl (fun c cs hc => urlPat1At_space hc cs) url hsp
      have h2 := reSearch_space urlPat2At rfl (fun c cs hc => urlPat2At_space hc cs) url hsp
      have h3 := reSearch_space urlPat3At rfl (fun c cs hc => urlPat3At_space hc cs) url hsp
      have h4 := reSearch_space urlPat4At rfl (fun c cs hc => urlPat4At_space hc cs) url hsp
      have hx : hexIdMatch (pyStrip url) = false := by rw [h]; rfl
      by_cases hn : url = []
      · simp [extract_market_id_from_url, hn]
      · simp [extract_market_id_from_url, hn, h1, h2, h3, h4, h, hexIdMatch]
  · intro url h hx h1 h2 h3 h4
    have hn : url ≠ [] := by
      intro e
      exact h (by rw [e]; rfl)
    simp [extract_market_id_from_url, hn, hx, h1, h2, h3, h4, h]

/-- Witness for `extract_market_id_spec`: the input `  btc-market  ` (nonempty
after stripping, matching no pattern) is returned stripped. -/
theorem extract_market_id_spec_witness :
    pyStrip ("  btc-market  ".toList) ≠ []
    ∧ extract_market_id_from_url ("  btc-market  ".toList)
        = some ("btc-market".toList) := by
  refine ⟨by decide, ?_⟩
  have h := extract_market_id_spec.2 ("  btc-market  ".toList) (by decide) (by decide)
    (by decide) (by decide) (by decide) (by decide)
  rw [h]
  decide
